import Mathlib

/-!
# Verification of the k8s-version parsing library

Shallow embedding of the Rust sources of `Techassi/k8s-version`:
Kubernetes-style API version identifiers `v<MAJOR>[(beta|alpha)<NUM>]`,
optionally prefixed with a group `<GROUP>/`.

The repository contains two parser generations:
* `src/lib.rs` (with `error.rs`): errors `Empty`, `IllegalLength`, `NonAscii`,
  `IllegalChar`, ... — embedded below in namespace `Lib`;
* `src/version.rs` / `src/level.rs` / `src/api_version.rs`: regex-based
  shape validation, errors `IllegalFormat`, `IllegalLevel`, ... — embedded
  at top level;
* `src/util.rs`: scanner primitives `consume_start` / `consume_digits` —
  embedded in namespace `Util`, with `Option` modelling a Rust panic
  (`none` = panic / `todo!()`).

Machine integers (`u64`) are modelled as `Nat` with explicit `2^64`
bounds where the Rust code uses checked or wrapping arithmetic.
Strings are modelled through their character lists (`String.data`); all
inputs relevant to the claims are ASCII, where Rust's byte iteration
coincides with char iteration (the two points where Rust inspects raw
bytes of possibly non-ASCII input — `input.len()` and `input.is_ascii()`
in `lib.rs` — are modelled via UTF-8 byte size and an ASCII check).
-/

/-- `2^64`, the number of values of Rust's `u64`. -/
def u64Size : Nat := 2 ^ 64

/-- Reduction modulo `2^64`, Rust's release-mode wrapping arithmetic. -/
def wrap64 (n : Nat) : Nat := n % u64Size

/-- ASCII lowercase letter, the Rust byte test `b'a' <= b && b <= b'z'`. -/
def isLowerAZ (c : Char) : Bool := decide ('a' ≤ c ∧ c ≤ 'z')

/-- ASCII digit, the Rust byte test `b'0' <= b && b <= b'9'`. -/
def isDigit09 (c : Char) : Bool := decide ('0' ≤ c ∧ c ≤ '9')

/-- Numeric value of an ASCII digit, Rust's `(digit - b'0') as u64`. -/
def digitVal (c : Char) : Nat := c.toNat - '0'.toNat

/-- The `Level` enum (identical in `level.rs`, `version.rs` (its local
`Level`) and `lib.rs` (there named `Minor`)): the stability suffix. -/
inductive Level where
  | Beta (n : Nat)
  | Alpha (n : Nat)
deriving DecidableEq

/-- `ParseLevelError` from `level.rs`. `ParseVersion` wraps the
`ParseIntError` of `u64::from_str`; the only way it can arise on an
all-digit capture is positive overflow, so the payload is dropped. -/
inductive ParseLevelError where
  | InvalidFormat
  | ParseVersion
  | UnknownIdentifier
deriving DecidableEq

/-- Value of an ASCII digit string, as accumulated by `u64::from_str`
(which succeeds on leading zeros: `"01"` parses to `1`). -/
def digitsToNat (l : List Char) : Nat :=
  l.foldl (fun n c => n * 10 + digitVal c) 0

/-- `Level::from_str` from `level.rs`: the anchored regex
`^(?P<identifier>[a-z]+)(?P<version>\d+)$` captures a nonempty lowercase
identifier followed by a nonempty digit run covering the whole input;
the digit run goes through `u64::from_str` (error wrapped as
`ParseVersion`), then the identifier is matched against `"alpha"` /
`"beta"`, anything else failing with `UnknownIdentifier`.
There is no leading-zero check on this path. -/
def Level.from_str (input : String) : Except ParseLevelError Level :=
  let ident := input.data.takeWhile isLowerAZ
  let rest := input.data.dropWhile isLowerAZ
  if ident.isEmpty || rest.isEmpty || !rest.all isDigit09 then
    .error .InvalidFormat
  else
    let n := digitsToNat rest
    if n < u64Size then
      match String.mk ident with
      | "alpha" => .ok (.Alpha n)
      | "beta" => .ok (.Beta n)
      | _ => .error .UnknownIdentifier
    else .error .ParseVersion

/-- `<Level as PartialOrd>::partial_cmp` from `level.rs`: `Beta` is
greater than `Alpha` regardless of numbers; within a variant the wrapped
`u64`s are compared (`u64::partial_cmp` is `Some (cmp)`). -/
def Level.partialCmp (a b : Level) : Option Ordering :=
  match a with
  | .Beta sb =>
    match b with
    | .Beta ob => some (compare sb ob)
    | .Alpha _ => some .gt
  | .Alpha sa =>
    match b with
    | .Beta _ => some .lt
    | .Alpha oa => some (compare sa oa)

/-- `<Level as Add<T>>::add` from `level.rs`: `b + rhs` on `u64`
(wrapping in release mode), returning a new `Level`. -/
def Level.add (l : Level) (rhs : Nat) : Level :=
  match l with
  | .Beta b => .Beta (wrap64 (b + rhs))
  | .Alpha a => .Alpha (wrap64 (a + rhs))

/-- `<Level as AddAssign<T>>::add_assign` from `level.rs`: the match
computes `*b + rhs.into()` in each arm but the result is an expression
statement whose value is discarded — `self` is never written to. The
state-passing embedding returns the (unchanged) receiver. -/
def Level.add_assign (l : Level) (rhs : Nat) : Level :=
  match l with
  | .Beta b => let _ := wrap64 (b + rhs); .Beta b
  | .Alpha a => let _ := wrap64 (a + rhs); .Alpha a

/-- `<Level as Sub<T>>::sub` from `level.rs`: `b - rhs` on `u64`
(wrapping in release mode), returning a new `Level`. -/
def Level.sub (l : Level) (rhs : Nat) : Level :=
  match l with
  | .Beta b => .Beta (wrap64 (b + u64Size - wrap64 rhs))
  | .Alpha a => .Alpha (wrap64 (a + u64Size - wrap64 rhs))

/-- `<Level as SubAssign<T>>::sub_assign` from `level.rs`: like
`add_assign`, the difference is computed and discarded; `self` is never
written to. -/
def Level.sub_assign (l : Level) (rhs : Nat) : Level :=
  match l with
  | .Beta b => let _ := wrap64 (b + u64Size - wrap64 rhs); .Beta b
  | .Alpha a => let _ := wrap64 (a + u64Size - wrap64 rhs); .Alpha a

/-- `<Level as Display>::fmt` (identical in `level.rs` and
`version.rs`): `beta{n}` / `alpha{n}`. -/
def Level.toString (l : Level) : String :=
  match l with
  | .Beta beta => "beta" ++ Nat.repr beta
  | .Alpha alpha => "alpha" ++ Nat.repr alpha

/-- ASCII lowercase alphanumeric, the regex class `[a-z0-9]`. -/
def isAlnumAZ09 (c : Char) : Bool := isLowerAZ c || isDigit09 c

/-- The regex class `[a-z0-9-]` (interior characters of a DNS label). -/
def isLabelMid (c : Char) : Bool := isAlnumAZ09 c || c = '-'

/-- One block `[a-z0-9][a-z0-9-]{0,61}[a-z0-9]` of `DNS_LABEL_REGEX`
from `version.rs`: length 2 to 63, first and last characters
alphanumeric, interior characters alphanumeric or hyphen. -/
def validBlock : List Char → Bool
  | [] => false
  | [_] => false
  | c :: rest =>
    isAlnumAZ09 c && rest.length ≤ 62 && rest.dropLast.all isLabelMid &&
      isAlnumAZ09 (rest.getLast?.getD ' ')

/-- The language of `^(?:[a-z0-9][a-z0-9-]{0,61}[a-z0-9])+$`: the input
splits into one or more consecutive valid blocks. `fuel` bounds the
recursion depth; every block has length at least 2, so `length + 1`
fuel always suffices. -/
def matchBlocks : Nat → List Char → Bool
  | 0, _ => false
  | fuel + 1, s =>
    (List.range (s.length + 1)).any fun j =>
      decide (2 ≤ j) && validBlock (s.take j) &&
        ((s.drop j).isEmpty || matchBlocks fuel (s.drop j))

/-- `DNS_LABEL_REGEX.is_match` from `version.rs`. -/
def dnsLabelMatch (s : List Char) : Bool := matchBlocks (s.length + 1) s

/-- `VersionParseError` from `version.rs`. -/
inductive VersionParseError where
  | IllegalFormat (message : String)
  | IllegalLevel (level : String)
  | IntegerOverflow
  | LeadingZero
deriving DecidableEq

/-- `ERROR_REGEX_FAILED_MESSAGE` from `version.rs`. -/
def regexFailedMessage : String :=
  "string is empty, contains non-ASCII characters or contains more than 63 characters"

/-- The digit loop of `extract_digits` from `version.rs`: consumes
digits with `next_if`, fails with `LeadingZero` when the first consumed
digit is `'0'`, accumulates with checked multiply-by-10 / add (failing
with `IntegerOverflow` when the `u64` range is exceeded), and stops
before the first non-digit, returning the accumulated number and the
remaining (unconsumed) characters. -/
def extract_digitsGo : List Char → Bool → Nat →
    Except VersionParseError (Nat × List Char)
  | [], _, number => .ok (number, [])
  | c :: rest, at_start, number =>
    if isDigit09 c then
      if at_start && c == '0' then .error .LeadingZero
      else if number * 10 + digitVal c < u64Size then
        extract_digitsGo rest false (number * 10 + digitVal c)
      else .error .IntegerOverflow
    else .ok (number, c :: rest)

/-- `extract_digits` from `version.rs`: returns the number, the count of
consumed characters (`length - bytes.len()` in the source) and the
iterator's remaining characters. -/
def extract_digits (bytes : List Char) :
    Except VersionParseError (Nat × Nat × List Char) :=
  match extract_digitsGo bytes true 0 with
  | .error e => .error e
  | .ok (number, rest) => .ok (number, bytes.length - rest.length, rest)

/-- The letter loop of `extract_chars` from `version.rs`: consumes the
maximal run of ASCII lowercase letters. -/
def extract_charsGo : List Char → List Char × List Char
  | [] => ([], [])
  | c :: rest =>
    if isLowerAZ c then
      let p := extract_charsGo rest
      (c :: p.1, p.2)
    else ([], c :: rest)

/-- `extract_chars` from `version.rs`: the collected identifier and the
iterator's remaining characters. -/
def extract_chars (bytes : List Char) : String × List Char :=
  let p := extract_charsGo bytes
  (String.mk p.1, p.2)

/-- The `Version` struct (identical shape in `version.rs` and `lib.rs`,
where the level field is named `minor`). -/
structure Version where
  major : Nat
  level : Option Level
deriving DecidableEq

/-- `Version::from_str` from `version.rs`: validate the whole input
against `DNS_LABEL_REGEX` (so it is nonempty — the `[]` branch below is
unreachable and mirrors the source's infallible `unwrap`), require a
leading `'v'`, extract the major number (rejecting zero consumed
digits), and, if characters remain, extract the level identifier and
its number. The source (see its `TODO`) never checks that the level's
digits consumed anything nor that the input is exhausted afterwards. -/
def Version.from_str (input : String) : Except VersionParseError Version :=
  if !dnsLabelMatch input.data then
    .error (.IllegalFormat regexFailedMessage)
  else
    match input.data with
    | [] => .error (.IllegalFormat regexFailedMessage)
    | first :: bytes =>
      if first != 'v' then
        .error (.IllegalFormat "version must start with \"v\"")
      else
        match extract_digits bytes with
        | .error e => .error e
        | .ok (major, consumed, rest) =>
          if consumed == 0 then
            .error (.IllegalFormat "failed to parse major version number")
          else if rest.isEmpty then .ok ⟨major, none⟩
          else
            let p := extract_chars rest
            match p.1 with
            | "beta" =>
              match extract_digits p.2 with
              | .error e => .error e
              | .ok (n, _, _) => .ok ⟨major, some (.Beta n)⟩
            | "alpha" =>
              match extract_digits p.2 with
              | .error e => .error e
              | .ok (n, _, _) => .ok ⟨major, some (.Alpha n)⟩
            | level => .error (.IllegalLevel level)

/-- `<Version as Display>::fmt` (identical in `version.rs` and
`lib.rs`): `v{major}` or `v{major}{level}`. -/
def Version.toString (v : Version) : String :=
  match v.level with
  | some minor => "v" ++ Nat.repr v.major ++ minor.toString
  | none => "v" ++ Nat.repr v.major

namespace Util

/-- `ConsumeError` from `util.rs`. -/
inductive ConsumeError where
  | UnexpectedCharacter (char : String)
  | LeadingZero
  | IntegerOverflow
deriving DecidableEq

/-- `consume_start` from `util.rs`. `none` models a Rust panic: when the
input does not start with `'v'`, the error construction slices
`input[..1]`, which panics on the empty string (and on a multi-byte
first character). -/
def consume_start (input : String) : Option (Except ConsumeError String) :=
  match input.data with
  | [] => none
  | c :: rest =>
    if c = 'v' then some (.ok (String.mk rest))
    else if c.utf8Size = 1 then
      some (.error (.UnexpectedCharacter (String.mk [c])))
    else none

/-- The digit loop of `consume_digits` from `util.rs`: the enumerate
index is `0` exactly on the first iteration, so the leading-zero test
`index == 0 && digit == b'0'` matches `extract_digits`' `at_start`. -/
def consume_digitsGo : List Char → Bool → Nat → Nat →
    Except ConsumeError (Nat × Nat)
  | [], _, number, consumed => .ok (number, consumed)
  | c :: rest, at_start, number, consumed =>
    if isDigit09 c then
      if at_start && c == '0' then .error .LeadingZero
      else if number * 10 + digitVal c < u64Size then
        consume_digitsGo rest false (number * 10 + digitVal c) (consumed + 1)
      else .error .IntegerOverflow
    else .ok (number, consumed)

/-- `consume_digits` from `util.rs`. `none` models a Rust panic: when
zero digits were consumed the source hits an explicit `todo!()`, which
aborts instead of returning. -/
def consume_digits (input : String) :
    Option (Except ConsumeError (Nat × String)) :=
  match consume_digitsGo input.data true 0 0 with
  | .error e => some (.error e)
  | .ok (number, consumed) =>
    if 0 < consumed then
      some (.ok (number, String.mk (input.data.drop consumed)))
    else none

end Util

namespace Lib

/-- `Error` from `error.rs` (the `lib.rs` parser generation). In the
source `IllegalChar` also carries `index: usize`, which `from_str`
always passes as `0`. -/
inductive Error where
  | IllegalChar (character : Char) (index : Nat)
  | IllegalIdentifier (identifier : String)
  | IllegalLength (length : Nat)
  | IntegerOverflow
  | LeadingZero
  | NonAscii
  | Empty
deriving DecidableEq

/-- Rust `str::len`: the UTF-8 byte length of the string. -/
def utf8Len (s : String) : Nat := s.data.foldl (fun n c => n + c.utf8Size) 0

/-- Rust `str::is_ascii`: every byte (equivalently, every character) is
below `128`. -/
def isAsciiStr (s : String) : Bool := s.data.all fun c => c.toNat < 128

/-- `extract_digits` from `lib.rs`: the same checked digit loop as
`version.rs` (`extract_digitsGo`), but only the accumulated number is
returned — the consumed count is discarded, so `lib.rs` callers cannot
detect an empty digit run. The mutated iterator is returned alongside. -/
def extract_digits (bytes : List Char) : Except Error (Nat × List Char) :=
  match extract_digitsGo bytes true 0 with
  | .error .LeadingZero => .error .LeadingZero
  | .error _ => .error .IntegerOverflow
  | .ok (number, rest) => .ok (number, rest)

/-- The `Version` struct from `lib.rs`: `major` with an optional
`minor` level (its `Minor` enum is the same `Beta`/`Alpha` union). -/
structure Version where
  major : Nat
  minor : Option Level
deriving DecidableEq

/-- `Version::from_str` from `lib.rs`: reject empty input (`Empty`),
byte length above 63 (`IllegalLength`), non-ASCII input (`NonAscii`),
and a first character other than `'v'` (`IllegalChar`); then extract
the major number (without checking that any digit was consumed) and,
if characters remain, the level identifier and its number. The `[]`
branch is unreachable (the input is nonempty) and mirrors the source's
`unwrap`. -/
def Version.from_str (input : String) : Except Error Version :=
  if input = "" then .error .Empty
  else if 63 < utf8Len input then .error (.IllegalLength (utf8Len input))
  else if !isAsciiStr input then .error .NonAscii
  else
    match input.data with
    | [] => .error .Empty
    | first :: bytes =>
      if first != 'v' then .error (.IllegalChar first 0)
      else
        match extract_digits bytes with
        | .error e => .error e
        | .ok (major, rest) =>
          if rest.isEmpty then .ok ⟨major, none⟩
          else
            let p := extract_chars rest
            match p.1 with
            | "beta" =>
              match extract_digits p.2 with
              | .error e => .error e
              | .ok (n, _) => .ok ⟨major, some (.Beta n)⟩
            | "alpha" =>
              match extract_digits p.2 with
              | .error e => .error e
              | .ok (n, _) => .ok ⟨major, some (.Alpha n)⟩
            | identifier => .error (.IllegalIdentifier identifier)

end Lib

/-- Rust `str::split_once`: split at the first occurrence of the
separator, returning the parts before and after it, or `none` when the
separator does not occur. -/
def splitOnce : List Char → Char → Option (List Char × List Char)
  | [], _ => none
  | c :: rest, sep =>
    if c = sep then some ([], rest)
    else
      match splitOnce rest sep with
      | some p => some (c :: p.1, p.2)
      | none => none

/-- `ApiVersionParseError` from `api_version.rs`, wrapping the inner
`Version` failure. -/
inductive ApiVersionParseError where
  | ParseVersion (source : VersionParseError)
deriving DecidableEq

/-- The `ApiVersion` struct from `api_version.rs`: an optional group
(stored verbatim, unvalidated) and a `Version`. -/
structure ApiVersion where
  group : Option String
  version : Version
deriving DecidableEq

/-- `ApiVersion::from_str` from `api_version.rs`: `split_once('/')`;
with a separator, the part before it becomes the group verbatim and the
part after it is parsed as a `Version`; without one, the whole input is
parsed as a `Version` and the group is `None`. Version failures are
wrapped in `ParseVersion`. -/
def ApiVersion.from_str (input : String) : Except ApiVersionParseError ApiVersion :=
  match splitOnce input.data '/' with
  | some (group, version) =>
    match Version.from_str (String.mk version) with
    | .ok v => .ok ⟨some (String.mk group), v⟩
    | .error e => .error (.ParseVersion e)
  | none =>
    match Version.from_str input with
    | .ok v => .ok ⟨none, v⟩
    | .error e => .error (.ParseVersion e)

/-- `<ApiVersion as Display>::fmt` from `api_version.rs`:
`{group}/{version}` or `{version}`. -/
def ApiVersion.toString (av : ApiVersion) : String :=
  match av.group with
  | some group => group ++ "/" ++ av.version.toString
  | none => av.version.toString

theorem splitOnce_append (g v : List Char) (sep : Char) (h : sep ∉ g) :
    splitOnce (g ++ sep :: v) sep = some (g, v) := by
  induction g with
  | nil => simp [splitOnce]
  | cons c rest ih =>
    have hc : c ≠ sep := fun he => h (he ▸ List.mem_cons_self c rest)
    have hrest : sep ∉ rest := fun hm => h (List.mem_cons_of_mem c hm)
    simp [splitOnce, hc, ih hrest]

theorem splitOnce_eq_none (s : List Char) (sep : Char) (h : sep ∉ s) :
    splitOnce s sep = none := by
  induction s with
  | nil => rfl
  | cons c rest ih =>
    have hc : c ≠ sep := fun he => h (he ▸ List.mem_cons_self c rest)
    have hrest : sep ∉ rest := fun hm => h (List.mem_cons_of_mem c hm)
    simp [splitOnce, hc, ih hrest]

/-- C1: the round-trip law `parse(s) = Ok(v) → format(v) = s` fails on
the code: `Version::from_str` accepts `"v2beta1x"` (it never verifies
that the input is exhausted after the level digits — see the source's
`TODO`), yet canonical formatting renders the parsed value as
`"v2beta1"`, which differs from the input. -/
theorem C1_round_trip_failing_input :
    Version.from_str "v2beta1x" = .ok ⟨2, some (.Beta 1)⟩ ∧
    Version.toString ⟨2, some (.Beta 1)⟩ = "v2beta1" ∧
    "v2beta1" ≠ "v2beta1x" :=
  ⟨rfl, rfl, by decide⟩

/-- C2: full consumption fails on the code: `Version::from_str` accepts
`"v1beta1x"` even though the byte `'x'` remains after the digits of the
level suffix — the parser returns `Ok` without checking that the
iterator is exhausted. -/
theorem C2_full_consumption_failing_input :
    Version.from_str "v1beta1x" = .ok ⟨1, some (.Beta 1)⟩ :=
  rfl

/-- C3: `Level::partial_cmp` is a total order: it is `Some` on every
pair, `Beta(n)` orders strictly greater than `Alpha(m)` for all `n, m`
(and symmetrically `Alpha` less than `Beta`), values of the same
variant compare by their wrapped integers, and every value compares
equal — never greater or less — to itself. -/
theorem C3_level_total_order :
    (∀ a b : Level, (Level.partialCmp a b).isSome = true) ∧
    (∀ n m : Nat, Level.partialCmp (.Beta n) (.Alpha m) = some .gt) ∧
    (∀ n m : Nat, Level.partialCmp (.Alpha n) (.Beta m) = some .lt) ∧
    (∀ n m : Nat, Level.partialCmp (.Beta n) (.Beta m) = some (compare n m)) ∧
    (∀ n m : Nat, Level.partialCmp (.Alpha n) (.Alpha m) = some (compare n m)) ∧
    (∀ a : Level, Level.partialCmp a a = some .eq ∧
      Level.partialCmp a a ≠ some .gt ∧ Level.partialCmp a a ≠ some .lt) := by
  refine ⟨?_, fun n m => rfl, fun n m => rfl, fun n m => rfl, fun n m => rfl, ?_⟩
  · intro a b
    cases a <;> cases b <;> simp [Level.partialCmp]
  · intro a
    have hself : ∀ n : Nat, compare n n = Ordering.eq := fun n => by
      simp [Nat.compare_eq_eq]
    cases a with
    | Beta n => simp [Level.partialCmp, hself n]
    | Alpha n => simp [Level.partialCmp, hself n]

/-- C4 counterexample: standalone `Level::from_str` does not reject a
leading zero in the level number — `"beta01"` parses successfully to
`Beta(1)` (its error type `ParseLevelError` has no `LeadingZero`
variant at all), contradicting the claim that every leading-zero
numeric run reached through standalone Level parsing fails with
`LeadingZero`. -/
theorem C4_leading_zero_counterexample :
    Level.from_str "beta01" = .ok (.Beta 1) :=
  rfl

/-- C4 (amended): every numeric run starting with `'0'` that is
consumed by `extract_digits` — hence any major or level number reached
through `Version::from_str` — fails with `LeadingZero`; in particular
`"v0"`, `"v01"`, `"v1beta0"` and `"v1alpha01"` all fail with
`LeadingZero`. Standalone `Level::from_str`, by contrast, accepts
leading zeros in the level number. -/
theorem C4_leading_zero_amended :
    (∀ cs : List Char, extract_digits ('0' :: cs) = .error .LeadingZero) ∧
    Version.from_str "v0" = .error .LeadingZero ∧
    Version.from_str "v01" = .error .LeadingZero ∧
    Version.from_str "v1beta0" = .error .LeadingZero ∧
    Version.from_str "v1alpha01" = .error .LeadingZero ∧
    Level.from_str "beta01" = .ok (.Beta 1) :=
  ⟨fun _ => rfl, rfl, rfl, rfl, rfl, rfl⟩

/-- C5: the scanner primitives of `util.rs` do panic: `consume_digits`
reaches an explicit `todo!()` (modelled as `none`) whenever zero digits
are consumed — on empty input and on input not starting with a digit —
and `consume_start` panics on empty input while building its error
(`input[..1]` on a zero-length string), contradicting the claim that
they return normally and leave the zero-digit decision to the caller. -/
theorem C5_scanner_panics :
    Util.consume_digits "" = none ∧
    Util.consume_digits "x1" = none ∧
    Util.consume_start "" = none :=
  ⟨rfl, rfl, rfl⟩

/-- C6: an input with no digits after the leading `'v'` does fail with
`IllegalFormat` (`"v"` via the shape regex, `"vbeta1"` via the
zero-consumed check), but `"v1beta"` — no digits after the level
identifier — does not fail with `InvalidFormat`: `Version::from_str`
never checks that the level's digit run is nonempty and returns a
success value with the level number defaulted to `0`. -/
theorem C6_required_digits_failing_input :
    Version.from_str "v" = .error (.IllegalFormat regexFailedMessage) ∧
    Version.from_str "vbeta1" =
      .error (.IllegalFormat "failed to parse major version number") ∧
    Version.from_str "v1beta" = .ok ⟨1, some (.Beta 0)⟩ :=
  ⟨rfl, rfl, rfl⟩

/-- C7: the overflow boundary sits exactly at `2^64`: parsing
`"v18446744073709551616"` fails with `IntegerOverflow` while
`"v18446744073709551615"` (`2^64 − 1`) succeeds with that major number
and no level — in both parser generations (`version.rs` and `lib.rs`). -/
theorem C7_overflow_boundary :
    Version.from_str "v18446744073709551616" = .error .IntegerOverflow ∧
    Version.from_str "v18446744073709551615" =
      .ok ⟨18446744073709551615, none⟩ ∧
    Lib.Version.from_str "v18446744073709551616" = .error .IntegerOverflow ∧
    Lib.Version.from_str "v18446744073709551615" =
      .ok ⟨18446744073709551615, none⟩ :=
  ⟨rfl, rfl, rfl, rfl⟩

/-- C8: `lib.rs`'s `Version::from_str` fails with `Empty` on the empty
string, and with `IllegalLength` carrying the input's byte length on
every input longer than 63 bytes — regardless of the input's content,
since both checks run before any byte is interpreted structurally. -/
theorem C8_empty_and_length :
    Lib.Version.from_str "" = .error .Empty ∧
    ∀ s : String, 63 < Lib.utf8Len s →
      Lib.Version.from_str s = .error (.IllegalLength (Lib.utf8Len s)) := by
  refine ⟨rfl, fun s h => ?_⟩
  have hs : s ≠ "" := by
    intro he
    subst he
    have h0 : Lib.utf8Len "" = 0 := rfl
    omega
  simp only [Lib.Version.from_str, if_neg hs, if_pos h]

theorem C8_empty_and_length_witness :
    Lib.Version.from_str
        "Aaaaaaaaaaaaaaaaaaaaaaaaaaaaaaaaaaaaaaaaaaaaaaaaaaaaaaaaaaaaaaaa" =
      .error (.IllegalLength (Lib.utf8Len
        "Aaaaaaaaaaaaaaaaaaaaaaaaaaaaaaaaaaaaaaaaaaaaaaaaaaaaaaaaaaaaaaaa")) :=
  C8_empty_and_length.2
    "Aaaaaaaaaaaaaaaaaaaaaaaaaaaaaaaaaaaaaaaaaaaaaaaaaaaaaaaaaaaaaaaa"
    (by decide)

/-- C9: `ApiVersion::from_str` splits at the first `'/'`: whenever the
input is `g ++ "/" ++ v` with no `'/'` in `g`, the group is exactly `g`
(stored verbatim) and the rest is parsed as a `Version` (errors
wrapped); with no `'/'` in the input the group is `None` and the whole
input is parsed as a `Version`. Concretely,
`"certificates.k8s.io/v1beta1"` yields group
`Some "certificates.k8s.io"` with the same version value that parsing
`"v1beta1"` yields, and `"v1"` yields group `None`. -/
theorem C9_group_splitting :
    (∀ g v : List Char, '/' ∉ g →
      ApiVersion.from_str (String.mk (g ++ '/' :: v)) =
        match Version.from_str (String.mk v) with
        | .ok ver => .ok ⟨some (String.mk g), ver⟩
        | .error e => .error (.ParseVersion e)) ∧
    (∀ s : String, '/' ∉ s.data →
      ApiVersion.from_str s =
        match Version.from_str s with
        | .ok ver => .ok ⟨none, ver⟩
        | .error e => .error (.ParseVersion e)) ∧
    ApiVersion.from_str "certificates.k8s.io/v1beta1" =
      .ok ⟨some "certificates.k8s.io", ⟨1, some (.Beta 1)⟩⟩ ∧
    Version.from_str "v1beta1" = .ok ⟨1, some (.Beta 1)⟩ ∧
    ApiVersion.from_str "v1" = .ok ⟨none, ⟨1, none⟩⟩ := by
  refine ⟨fun g v h => ?_, fun s h => ?_, rfl, rfl, rfl⟩
  · unfold ApiVersion.from_str
    rw [show (String.mk (g ++ '/' :: v)).data = g ++ '/' :: v from rfl,
      splitOnce_append g v '/' h]
  · unfold ApiVersion.from_str
    rw [splitOnce_eq_none s.data '/' h]

theorem C9_group_splitting_witness :
    ApiVersion.from_str (String.mk (['g'] ++ '/' :: ['v', '2'])) =
      match Version.from_str (String.mk ['v', '2']) with
      | .ok ver => .ok ⟨some (String.mk ['g']), ver⟩
      | .error e => .error (.ParseVersion e) :=
  C9_group_splitting.1 ['g'] ['v', '2'] (by decide)

/-- C10: for every `Level` and every right-hand operand, the compound
assignment operators of `level.rs` are no-ops — `add_assign` and
`sub_assign` compute the sum/difference, discard it, and leave the
receiver unchanged — while the binary `add`/`sub` return a `Level`
whose wrapped number has been changed by the operand. -/
theorem C10_compound_assignment_noop :
    (∀ (l : Level) (rhs : Nat),
      Level.add_assign l rhs = l ∧ Level.sub_assign l rhs = l) ∧
    (∀ (b rhs : Nat),
      Level.add (.Beta b) rhs = .Beta (wrap64 (b + rhs)) ∧
      Level.add (.Alpha b) rhs = .Alpha (wrap64 (b + rhs)) ∧
      Level.sub (.Beta b) rhs = .Beta (wrap64 (b + u64Size - wrap64 rhs)) ∧
      Level.sub (.Alpha b) rhs = .Alpha (wrap64 (b + u64Size - wrap64 rhs))) ∧
    Level.add (.Beta 1) 2 = .Beta 3 ∧
    Level.add_assign (.Beta 1) 2 = .Beta 1 ∧
    Level.sub (.Alpha 5) 2 = .Alpha 3 ∧
    Level.sub_assign (.Alpha 5) 2 = .Alpha 5 := by
  refine ⟨fun l rhs => ?_, fun b rhs => ⟨rfl, rfl, rfl, rfl⟩, ?_, rfl, ?_, rfl⟩
  · cases l <;> exact ⟨rfl, rfl⟩
  · show Level.Beta (wrap64 (1 + 2)) = Level.Beta 3
    norm_num [wrap64, u64Size]
  · show Level.Alpha (wrap64 (5 + u64Size - wrap64 2)) = Level.Alpha 3
    norm_num [wrap64, u64Size]
